import Mathlib

/-!
Verification of the RESToverRDP file-mediated broker protocol.

The repository relays HTTP requests between a submitter role
(local-rest-proxy, and a refined iteration of it) and a worker role
(rdp-rest-proxy) through a shared directory.  We embed the shared store as
an association list from path strings to file contents, and translate the
relevant functions of the source files: the lock primitives (both the
truncate-create variant of rdp-rest-proxy/proxy.js and local-rest-proxy/
proxy.js, and the exclusive-create variant of the refined local proxy),
directory initialization, request submission, the worker's retry loop and
per-file processing step, both completion-waiter variants, the waiter's
cleanup, the discovery loop's recently-seen set, and the worker's
semaphore.
-/

/-- Body of a Response Record: either the payload forwarded from the target
call (`body: response.data`), or the synthesized error object
`\x7b error, message \x7d` written by the worker's error path. -/
inductive RespBody where
  | payload (s : String)
  | errorObj (error : String) (message : String)
deriving DecidableEq, Repr

/-- A Request Record as written by the submitter (local proxy `app.all`
handler): `\x7b id, method, path, headers, body, timestamp, status \x7d`. -/
structure RequestRecord where
  id : String
  method : String
  path : String
  headers : List (String × String)
  body : Option String
  timestamp : Nat
  status : String
deriving DecidableEq, Repr

/-- A Response Record as written by the worker:
`\x7b statusCode, headers, body, timestamp \x7d`. -/
structure ResponseRecord where
  statusCode : Nat
  headers : List (String × String)
  body : RespBody
  timestamp : Nat
deriving DecidableEq, Repr

/-- Contents of a file in the shared store: a raw string (lock markers,
done markers, malformed files), or a serialized record.  `JSON.parse` of a
request file succeeds exactly when the content is `req`. -/
inductive Content where
  | raw (s : String)
  | req (r : RequestRecord)
  | resp (r : ResponseRecord)
deriving DecidableEq, Repr

/-- The shared store: a flat map from path to content, as an association
list.  The directory tree of the source is flattened using the literal
relative paths `requests/...` and `responses/...`. -/
abbrev FS := List (String × Content)

/-- Read a file (`fs.readFile`): `none` models ENOENT. -/
def fsLookup : FS → String → Option Content
  | [], _ => none
  | kv :: rest, p => if kv.1 = p then some kv.2 else fsLookup rest p

/-- Existence check in the style of `fs.access`. -/
def fsMem (fs : FS) (p : String) : Bool :=
  (fsLookup fs p).isSome

/-- Remove every binding of a path (helper for writes and deletes). -/
def fsErase : FS → String → FS
  | [], _ => []
  | kv :: rest, p => if kv.1 = p then fsErase rest p else kv :: fsErase rest p

/-- Model of `fs.writeFile` with the default `w` flag: create or truncate, always
succeeds. -/
def fsWrite (fs : FS) (p : String) (c : Content) : FS :=
  (p, c) :: fsErase fs p

/-- Model of `fs.writeFile` with the `wx` flag: exclusive create, fails (returns
`none`, modelling EEXIST) when the path already exists. -/
def fsWriteExcl (fs : FS) (p : String) (c : Content) : Option FS :=
  if fsMem fs p then none else some ((p, c) :: fs)

/-- Model of `fs.unlink`: fails (returns `none`, modelling ENOENT) when the path
does not exist. -/
def fsUnlink (fs : FS) (p : String) : Option FS :=
  if fsMem fs p then some (fsErase fs p) else none

/-- The `lockFile` of rdp-rest-proxy/proxy.js lines 44-52 (identical in
local-rest-proxy/proxy.js lines 41-49): `fs.writeFile(lockPath, '')` with
the default flag, so the call succeeds and returns `true` even when the
lock marker already exists, truncating it. -/
def lockFile_rdp (fs : FS) (filePath : String) : FS × Bool :=
  (fsWrite fs (filePath ++ ".lock") (Content.raw ""), true)

/-- The `unlockFile` of rdp-rest-proxy/proxy.js lines 54-62: `fs.unlink`; any
error (including ENOENT) is caught and reported as `false`. -/
def unlockFile_rdp (fs : FS) (filePath : String) : FS × Bool :=
  match fsUnlink fs (filePath ++ ".lock") with
  | some fs2 => (fs2, true)
  | none => (fs, false)

/-- The `lockFile` of the refined local proxy (src/unnamed/part_000 lines
68-94): `fs.writeFile(lockFile, pid, \x7b flag: 'wx' \x7d)`; EEXIST yields
`false`. -/
def lockFile_excl (fs : FS) (filePath : String) : FS × Bool :=
  match fsWriteExcl fs (filePath ++ ".lock") (Content.raw "pid") with
  | some fs2 => (fs2, true)
  | none => (fs, false)

/-- The `unlockFile` of src/unnamed/part_000 lines 96-108: `fs.unlink`, with
ENOENT explicitly treated as success ("If lock file doesn't exist, that's
fine"). -/
def unlockFile_excl (fs : FS) (filePath : String) : FS × Bool :=
  match fsUnlink fs (filePath ++ ".lock") with
  | some fs2 => (fs2, true)
  | none => (fs, true)

/-- Test that `pat` is a prefix of `s` (executable model of `String.startsWith`,
stated on the character lists so that it evaluates in the kernel). -/
def strStartsWith (s pat : String) : Bool :=
  pat.data.isPrefixOf s.data

/-- Test that `pat` is a suffix of `s` (executable model of `String.endsWith`). -/
def strEndsWith (s pat : String) : Bool :=
  pat.data.isSuffixOf s.data

/-- Model of `fs.rm(dir, \x7b recursive: true, force: true \x7d)`: removes every
path inside the directory; missing entries are not an error. -/
def rmRecursiveForce (fs : FS) (dir : String) : FS :=
  fs.filter (fun kv => !(strStartsWith kv.1 (dir ++ "/")))

/-- The `initializeDirs` of rdp-rest-proxy/proxy.js lines 77-94 (identical in
local-rest-proxy/proxy.js lines 62-76 and src/unnamed/part_000 lines
111-125): recursively delete both namespaces, then recreate them empty
(`mkdir` of an empty directory is a no-op in the flat-path model). -/
def initDirs (fs : FS) : FS :=
  rmRecursiveForce (rmRecursiveForce fs "requests") "responses"

/-- The submitter's enqueue (local-rest-proxy/proxy.js lines 92-105,
identical in part_000 lines 141-154): build the Request Record with
`status: 'pending'` and write it to `requests/<id>.json`. -/
def submitRequest (fs : FS) (id method path : String)
    (headers : List (String × String)) (body : Option String) (now : Nat) : FS :=
  fsWrite fs ("requests/" ++ id ++ ".json")
    (Content.req
      { id := id, method := method, path := path, headers := headers,
        body := body, timestamp := now, status := "pending" })

/-- Outcome of one `axios(...)` call: an HTTP response (any status code,
because `validateStatus: () => true`), or a transport-level error. -/
inductive AxiosResult where
  | ok (status : Nat) (headers : List (String × String)) (data : String)
  | transportError (message : String)
deriving DecidableEq, Repr

/-- Constant `MAX_RETRIES` of rdp-rest-proxy/proxy.js line 15. -/
def MAX_RETRIES : Nat := 3

/-- Result of the worker's retry loop: the response if one attempt
succeeded, the last transport error, the number of failed attempts
(`retries`), and the backoff delays slept between attempts. -/
structure RetryResult where
  response : Option AxiosResult
  lastError : Option String
  retries : Nat
  delays : List Nat
deriving DecidableEq, Repr

/-- The worker's retry loop (rdp-rest-proxy/proxy.js lines 162-187):
`while (retries < MAX_RETRIES && !response)`; on failure `retries++` and,
if more attempts remain, sleep `1000 * retries` ms.  Attempt `i` consults
`oracle i` where `i` is the number of failures so far.  The fuel argument
only bounds recursion; the `retries < MAX_RETRIES` guard mirrors the
source's loop condition. -/
def retryGo (oracle : Nat → AxiosResult) :
    Nat → Nat → Option String → List Nat → RetryResult
  | 0, retries, lastError, delays =>
      { response := none, lastError := lastError, retries := retries, delays := delays }
  | Nat.succ fuel, retries, lastError, delays =>
      if retries < MAX_RETRIES then
        match oracle retries with
        | AxiosResult.ok s h d =>
            { response := some (AxiosResult.ok s h d), lastError := lastError,
              retries := retries, delays := delays }
        | AxiosResult.transportError msg =>
            retryGo oracle fuel (retries + 1) (some msg)
              (if retries + 1 < MAX_RETRIES then delays ++ [1000 * (retries + 1)] else delays)
      else
        { response := none, lastError := lastError, retries := retries, delays := delays }

/-- Entry point of the retry loop: `retries = 0`, no response, no error. -/
def retryLoop (oracle : Nat → AxiosResult) : RetryResult :=
  retryGo oracle MAX_RETRIES 0 none []

/-- The synthetic failure response of the worker's error path
(rdp-rest-proxy/proxy.js lines 236-244): status 500, empty headers, body
carrying the thrown error's message. -/
def errorResponse (message : String) (now : Nat) : ResponseRecord :=
  { statusCode := 500, headers := [],
    body := RespBody.errorObj "Internal Server Error" message, timestamp := now }

/-- Replace the first occurrence of `pat` in a character list
(JS `String.prototype.replace` with a string pattern). -/
def replaceFirstAux (pat rep : List Char) : List Char → List Char
  | [] => []
  | c :: rest =>
      if pat.isPrefixOf (c :: rest) then rep ++ (c :: rest).drop pat.length
      else c :: replaceFirstAux pat rep rest

/-- Model of `s.replace(pat, rep)` for a string pattern: first occurrence only. -/
def replaceFirst (s pat rep : String) : String :=
  String.mk (replaceFirstAux pat.data rep.data s.data)

/-- A primitive store operation performed by the worker, in program
order. -/
inductive FOp where
  | write (p : String) (c : Content)
  | unlink (p : String)
deriving DecidableEq, Repr

/-- Effect of one operation on the store.  `unlink` here is the effect of
the source's unlock/cleanup deletes, whose errors are swallowed. -/
def applyOp (fs : FS) : FOp → FS
  | FOp.write p c => fsWrite fs p c
  | FOp.unlink p => fsErase fs p

/-- Apply a list of operations left to right. -/
def applyOps (fs : FS) (ops : List FOp) : FS :=
  ops.foldl applyOp fs

/-- The sequence of store operations performed by the worker for one
request file `f` (rdp-rest-proxy/proxy.js lines 134-258), as a trace:
lock the request file (`lockFile` there always succeeds); parse it; if
`status !== 'pending'` just unlock; otherwise run the retry loop; on
success lock the response file, write the Response Record, then write the
`.done` marker, unlock, and set the request's status to `'completed'`; on
retry exhaustion (or a parse failure) write the synthetic 500 response to
`responses/<f.replace('.json','')>.json` and, when the request re-parses,
set its status to `'error'`; finally unlock the request file.  In the
parse-failure branch the re-read inside the catch throws again, so no
status is written there. -/
def workerStepOps (oracle : Nat → AxiosResult) (fs : FS) (f : String) (now : Nat) :
    List FOp :=
  match fsLookup fs ("requests/" ++ f) with
  | some (Content.req requestData) =>
      if requestData.status = "pending" then
        match (retryLoop oracle).response with
        | some (AxiosResult.ok s h d) =>
            [FOp.write ("requests/" ++ f ++ ".lock") (Content.raw ""),
             FOp.write ("responses/" ++ requestData.id ++ ".json" ++ ".lock") (Content.raw ""),
             FOp.write ("responses/" ++ requestData.id ++ ".json")
               (Content.resp
                 { statusCode := s, headers := h, body := RespBody.payload d, timestamp := now }),
             FOp.write ("responses/" ++ requestData.id ++ ".json" ++ ".done") (Content.raw ""),
             FOp.unlink ("responses/" ++ requestData.id ++ ".json" ++ ".lock"),
             FOp.write ("requests/" ++ f)
               (Content.req { requestData with status := "completed" }),
             FOp.unlink ("requests/" ++ f ++ ".lock")]
        | some (AxiosResult.transportError m) =>
            [FOp.write ("requests/" ++ f ++ ".lock") (Content.raw ""),
             FOp.write ("responses/" ++ replaceFirst f ".json" "" ++ ".json")
               (Content.resp (errorResponse m now)),
             FOp.write ("requests/" ++ f)
               (Content.req { requestData with status := "error" }),
             FOp.unlink ("requests/" ++ f ++ ".lock")]
        | none =>
            [FOp.write ("requests/" ++ f ++ ".lock") (Content.raw ""),
             FOp.write ("responses/" ++ replaceFirst f ".json" "" ++ ".json")
               (Content.resp
                 (errorResponse ((retryLoop oracle).lastError.getD "Max retries exceeded") now)),
             FOp.write ("requests/" ++ f)
               (Content.req { requestData with status := "error" }),
             FOp.unlink ("requests/" ++ f ++ ".lock")]
      else
        [FOp.write ("requests/" ++ f ++ ".lock") (Content.raw ""),
         FOp.unlink ("requests/" ++ f ++ ".lock")]
  | _ =>
      [FOp.write ("requests/" ++ f ++ ".lock") (Content.raw ""),
       FOp.write ("responses/" ++ replaceFirst f ".json" "" ++ ".json")
         (Content.resp (errorResponse "Unexpected token in JSON" now)),
       FOp.unlink ("requests/" ++ f ++ ".lock")]

/-- The worker's processing of one request file: its trace applied to the
store. -/
def workerStep (oracle : Nat → AxiosResult) (fs : FS) (f : String) (now : Nat) : FS :=
  applyOps fs (workerStepOps oracle fs f now)

/-- One poll iteration of the refined completion waiter
(src/unnamed/part_000 lines 167-235): acquire the exclusive lock on the
response file; check both the `.done` marker and the response file; read
the response only when both exist; unlock in the `finally`. -/
def waiterTick_marker (fs : FS) (id : String) : FS × Option ResponseRecord :=
  match lockFile_excl fs ("responses/" ++ id ++ ".json") with
  | (fsL, true) =>
      if fsMem fsL ("responses/" ++ id ++ ".json" ++ ".done")
          && fsMem fsL ("responses/" ++ id ++ ".json") then
        match fsLookup fsL ("responses/" ++ id ++ ".json") with
        | some (Content.resp r) =>
            ((unlockFile_excl fsL ("responses/" ++ id ++ ".json")).1, some r)
        | _ => ((unlockFile_excl fsL ("responses/" ++ id ++ ".json")).1, none)
      else ((unlockFile_excl fsL ("responses/" ++ id ++ ".json")).1, none)
  | (_, false) => (fs, none)

/-- One poll iteration of the local-rest-proxy completion waiter
(local-rest-proxy/proxy.js lines 117-150): lock (the truncate-create
variant, always succeeds), read and parse the response file directly —
there is no `.done` check — then delete the response and request files and
unlock.  A missing response file (ENOENT) is swallowed and the tick yields
nothing. -/
def waiterTick_nomarker (fs : FS) (id : String) : FS × Option ResponseRecord :=
  match lockFile_rdp fs ("responses/" ++ id ++ ".json") with
  | (fsL, _) =>
      match fsLookup fsL ("responses/" ++ id ++ ".json") with
      | some (Content.resp r) =>
          ((unlockFile_rdp
              (fsErase (fsErase fsL ("responses/" ++ id ++ ".json"))
                ("requests/" ++ id ++ ".json"))
              ("responses/" ++ id ++ ".json")).1,
           some r)
      | _ => ((unlockFile_rdp fsL ("responses/" ++ id ++ ".json")).1, none)

/-- The refined waiter's cleanup after delivering a response
(src/unnamed/part_000 lines 281-287): unlink the response file, its
`.done` marker and the request file, each with `.catch(() => \x7b\x7d)`,
so deleting an absent file is a no-op. -/
def cleanupFiles (fs : FS) (id : String) : FS :=
  fsErase
    (fsErase (fsErase fs ("responses/" ++ id ++ ".json"))
      ("responses/" ++ id ++ ".json" ++ ".done"))
    ("requests/" ++ id ++ ".json")

/-- What the handler sends back to the original caller
(`res.status(response.statusCode || 200).set(response.headers ||
\x7b\x7d).send(response.body || \x7b\x7d)`, local-rest-proxy/proxy.js
lines 186-188 and part_000 lines 260-262). -/
structure Sent where
  status : Nat
  headers : List (String × String)
  body : RespBody
deriving DecidableEq, Repr

/-- Build the delivered response, modelling the `||` fallbacks: a zero
status code falls back to 200 and an empty payload to the empty object. -/
def sendResponse (r : ResponseRecord) : Sent :=
  { status := if r.statusCode = 0 then 200 else r.statusCode,
    headers := r.headers,
    body :=
      match r.body with
      | RespBody.payload s =>
          if s = "" then RespBody.payload "\x7b\x7d" else RespBody.payload s
      | b => b }

/-- Constant `POLL_INTERVAL` of the waiter loop (local-rest-proxy/proxy.js line
114). -/
def POLL_INTERVAL : Nat := 100

/-- Constant `MAX_ATTEMPTS` of the waiter loop (local-rest-proxy/proxy.js line
115). -/
def MAX_ATTEMPTS : Nat := 300

/-- Outcome of the waiter loop: a delivered response, or a timeout
carrying the elapsed wait in milliseconds. -/
inductive AwaitOutcome where
  | response (r : ResponseRecord)
  | timeout (elapsedMs : Nat)
deriving DecidableEq, Repr

/-- The waiter loop of local-rest-proxy/proxy.js lines 117-164:
`while (!response && attempts < MAX_ATTEMPTS)`, one
`waiterTick_nomarker` per iteration against the store visible on that
attempt, sleeping `POLL_INTERVAL` and incrementing `attempts` after each
empty tick.  Fuel bounds the recursion and starts at `MAX_ATTEMPTS`. -/
def awaitGo (stores : Nat → FS) (id : String) :
    Nat → Nat → Option ResponseRecord × Nat
  | 0, attempts => (none, attempts)
  | Nat.succ fuel, attempts =>
      match (waiterTick_nomarker (stores attempts) id).2 with
      | some r => (some r, attempts)
      | none => awaitGo stores id fuel (attempts + 1)

/-- The submitter-facing wait: poll until a response or `MAX_ATTEMPTS`
exhausted; the elapsed time is the accumulated poll sleeps. -/
def awaitResponse (stores : Nat → FS) (id : String) : AwaitOutcome :=
  match awaitGo stores id MAX_ATTEMPTS 0 with
  | (some r, _) => AwaitOutcome.response r
  | (none, attempts) => AwaitOutcome.timeout (attempts * POLL_INTERVAL)

/-- Body of the 504 answer (local-rest-proxy/proxy.js lines 173-177). -/
structure TimeoutJson where
  error : String
  message : String
  elapsedTime : Nat
deriving DecidableEq, Repr

/-- The Gateway-Timeout answer sent when the wait loop exhausts its
attempts. -/
def timeoutHttp (elapsedTime : Nat) : Nat × TimeoutJson :=
  (504, { error := "Gateway Timeout",
          message := "Remote client did not respond in time",
          elapsedTime := elapsedTime })

/-- Constant `MAX_PROCESSED_FILES` of rdp-rest-proxy/proxy.js line 19. -/
def MAX_PROCESSED_FILES : Nat := 1000

/-- The discovery filter of rdp-rest-proxy/proxy.js lines 103-107: keep
listing entries ending in `.json`, not ending in `.lock`, and not in the
`processedFiles` set. -/
def newFilesOf (files processed : List String) : List String :=
  files.filter (fun f =>
    strEndsWith f ".json" && !(strEndsWith f ".lock") && !(processed.contains f))

/-- The `processedFiles` update of rdp-rest-proxy/proxy.js lines 115-122:
add every new file to the set (insertion order), then, if the set exceeds
`MAX_PROCESSED_FILES`, evict the oldest entries down to the cap. -/
def updateProcessed (processed nf : List String) : List String :=
  if MAX_PROCESSED_FILES < (processed ++ nf).length then
    (processed ++ nf).drop ((processed ++ nf).length - MAX_PROCESSED_FILES)
  else processed ++ nf

/-- One discovery tick over a listing (rdp-rest-proxy/proxy.js lines
100-142), abstracting the per-file processing to the lock attempt's
outcome: returns the updated `processedFiles` set and the dispatch
attempts with their lock results.  The set is updated before any lock is
attempted, exactly as in the source. -/
def discoveryTick (processed files : List String) (lockOk : String → Bool) :
    List String × List (String × Bool) :=
  (updateProcessed processed (newFilesOf files processed),
   (newFilesOf files processed).map (fun f => (f, lockOk f)))

/-- State of the worker's `Semaphore` (rdp-rest-proxy/proxy.js lines
270-293), with the queue abstracted to its length and a ghost count of
tasks currently holding a slot (acquired and not yet released). -/
structure SemState where
  current : Nat
  queue : Nat
  holders : Nat
deriving DecidableEq, Repr

/-- A semaphore interaction. -/
inductive SemEvent where
  | acquire
  | release
deriving DecidableEq, BEq, Repr

/-- Semantics of `acquire`: grant a slot when `current < maxConcurrent`, else enqueue
the waiter.  `release`: hand the slot to a queued waiter when one exists
(the releaser stops holding and the waiter starts, so `holders` is
unchanged), else decrement `current`. -/
def semStep (maxConcurrent : Nat) (s : SemState) : SemEvent → SemState
  | SemEvent.acquire =>
      if s.current < maxConcurrent then
        { current := s.current + 1, queue := s.queue, holders := s.holders + 1 }
      else
        { current := s.current, queue := s.queue + 1, holders := s.holders }
  | SemEvent.release =>
      if 0 < s.queue then
        { current := s.current, queue := s.queue - 1, holders := s.holders }
      else
        { current := s.current - 1, queue := s.queue, holders := s.holders - 1 }

/-- Run a sequence of semaphore events from the freshly constructed
semaphore (`current = 0`, empty queue). -/
def semRun (maxConcurrent : Nat) (events : List SemEvent) : SemState :=
  events.foldl (semStep maxConcurrent) { current := 0, queue := 0, holders := 0 }

/-- Constant `MAX_CONCURRENT_REQUESTS` of rdp-rest-proxy/proxy.js line 14. -/
def MAX_CONCURRENT_REQUESTS : Nat := 40

/-- How one per-file task of the batch ends (rdp-rest-proxy/proxy.js lines
134-258): the lock attempt fails, the record is not pending, the request
completes, or the error path runs. -/
inductive TaskOutcome where
  | lockFailed
  | notPending
  | success
  | errorPath
deriving DecidableEq, Repr

/-- The semaphore events of one per-file task: `await semaphore.acquire()`
first, and `semaphore.release()` in the outermost `finally`, so exactly
one release follows the acquire on every path, whatever the outcome. -/
def fileTaskSemEvents : TaskOutcome → List SemEvent :=
  fun _ => [SemEvent.acquire, SemEvent.release]

/-- Last character of a string, used to separate the deterministic
suffix-based path families (`...json`, `....lock`, `....done`). -/
def lastChar (s : String) : Option Char :=
  s.data.reverse.head?

/-- Predicate stating that `op` creates a completion marker: it writes a path of the `.done`
family. -/
def isDoneCreate : FOp → Prop
  | FOp.write p _ => ∃ q, p = q ++ ".done"
  | FOp.unlink _ => False

/-- Every Request Record in the store carries one of the status values the
code actually writes. -/
def StatusOK (fs : FS) : Prop :=
  ∀ p r, fsLookup fs p = some (Content.req r) →
    r.status = "pending" ∨ r.status = "completed" ∨ r.status = "error"

-- Concrete fixtures used by the closed theorems and witnesses below.

/-- Store holding only a foreign lock marker for resource `r`. -/
def c1Store : FS := [("r.lock", Content.raw "held")]

/-- A fully written Response Record used in the commit-ordering
scenarios. -/
def c2Resp : ResponseRecord :=
  { statusCode := 200, headers := [], body := RespBody.payload "ok", timestamp := 3 }

/-- Store with the Response Record present but no `.done` marker. -/
def c2StoreNoMarker : FS := [("responses/abc.json", Content.resp c2Resp)]

/-- Store with both the Response Record and its `.done` marker. -/
def c2StoreMarked : FS :=
  [("responses/abc.json", Content.resp c2Resp), ("responses/abc.json.done", Content.raw "")]

/-- Headers of the round-trip scenario. -/
def c3Headers : List (String × String) := [("content-type", "application/json")]

/-- Body of the round-trip scenario: the JSON text \x7b"id":42\x7d. -/
def c3Body : String := "\x7b\"id\":42\x7d"

/-- Target call oracle of the round-trip scenario: always answers 200. -/
def c3Oracle : Nat → AxiosResult :=
  fun _ => AxiosResult.ok 200 c3Headers c3Body

/-- Store after submitting the round-trip request. -/
def c3Store0 : FS := submitRequest [] "w42" "GET" "/widgets/42" [] none 0

/-- Store after the worker processed the round-trip request. -/
def c3Store1 : FS := workerStep c3Oracle c3Store0 "w42.json" 1

/-- The Response Record the worker writes in the round-trip scenario. -/
def c3RespRec : ResponseRecord :=
  { statusCode := 200, headers := c3Headers, body := RespBody.payload c3Body, timestamp := 1 }

/-- A target that always fails at transport level. -/
def c4FailOracle : Nat → AxiosResult :=
  fun _ => AxiosResult.transportError "connect ECONNREFUSED 127.0.0.1:8088"

/-- Store holding one pending request, for the failure-path scenarios. -/
def c4Store : FS := submitRequest [] "a" "GET" "/x" [] none 0

/-- The Request Record as rewritten by the worker's success path in the
round-trip scenario. -/
def c4CompletedRec : RequestRecord :=
  { id := "w42", method := "GET", path := "/widgets/42", headers := [],
    body := none, timestamp := 0, status := "completed" }

/-- Store holding one pending request with id `e`, for the retry
exhaustion scenario. -/
def c5Store : FS := submitRequest [] "e" "GET" "/x" [] none 0

-- Helper lemmas

theorem fsLookup_fsErase (fs : FS) (p q : String) :
    fsLookup (fsErase fs p) q = if q = p then none else fsLookup fs q := by
  induction fs with
  | nil => by_cases h : q = p <;> simp [fsLookup, fsErase, h]
  | cons kv rest ih =>
      by_cases hp : kv.1 = p
      · rw [show fsErase (kv :: rest) p = fsErase rest p by simp [fsErase, hp], ih]
        by_cases h : q = p
        · simp [h]
        · have hkq : kv.1 ≠ q := by rw [hp]; exact fun hh => h hh.symm
          simp [h, fsLookup, hkq]
      · rw [show fsErase (kv :: rest) p = kv :: fsErase rest p by simp [fsErase, hp]]
        by_cases hk : kv.1 = q
        · have hqp : ¬ q = p := fun h2 => hp (hk.trans h2)
          simp [fsLookup, hk, hqp]
        · simp [fsLookup, hk, ih]

theorem fsLookup_fsWrite (fs : FS) (p q : String) (c : Content) :
    fsLookup (fsWrite fs p c) q = if q = p then some c else fsLookup fs q := by
  unfold fsWrite
  by_cases h : q = p
  · subst h; simp [fsLookup]
  · have h2 : ¬ p = q := fun h3 => h h3.symm
    simp [fsLookup, h2, h, fsLookup_fsErase]

theorem fsErase_of_not_mem (fs : FS) (p : String) (h : fsMem fs p = false) :
    fsErase fs p = fs := by
  induction fs with
  | nil => rfl
  | cons kv rest ih =>
      by_cases hk : kv.1 = p
      · exfalso; unfold fsMem fsLookup at h; simp [hk] at h
      · have h2 : fsMem rest p = false := by
          unfold fsMem at h ⊢
          rw [show fsLookup (kv :: rest) p = fsLookup rest p by simp [fsLookup, hk]] at h
          exact h
        simp [fsErase, hk, ih h2]

theorem fsLookup_applyOps (ops : List FOp) (fs : FS) (p : String) (c : Content)
    (h : fsLookup (applyOps fs ops) p = some c) :
    FOp.write p c ∈ ops ∨ fsLookup fs p = some c := by
  induction ops generalizing fs with
  | nil => exact Or.inr h
  | cons op rest ih =>
      rcases ih (applyOp fs op) h with hmem | hl
      · exact Or.inl (List.mem_cons_of_mem _ hmem)
      · cases op with
        | write q c2 =>
            rw [show applyOp fs (FOp.write q c2) = fsWrite fs q c2 from rfl,
              fsLookup_fsWrite] at hl
            by_cases hpq : p = q
            · rw [if_pos hpq] at hl
              subst hpq
              rw [← Option.some.inj hl]
              exact Or.inl (List.mem_cons_self _ _)
            · rw [if_neg hpq] at hl; exact Or.inr hl
        | unlink q =>
            rw [show applyOp fs (FOp.unlink q) = fsErase fs q from rfl,
              fsLookup_fsErase] at hl
            by_cases hpq : p = q
            · rw [if_pos hpq] at hl; cases hl
            · rw [if_neg hpq] at hl; exact Or.inr hl

theorem lastChar_append (s t : String) (h : t.data ≠ []) :
    lastChar (s ++ t) = lastChar t := by
  unfold lastChar
  rw [String.data_append, List.reverse_append]
  cases hr : t.data.reverse with
  | nil => exact absurd (by simpa using congrArg List.reverse hr) h
  | cons c cs => rfl

theorem ne_done_of_lastChar (p : String) (c : Char) (hc : lastChar p = some c)
    (hne : c ≠ 'e') (q : String) : p ≠ q ++ ".done" := by
  intro h
  rw [h, lastChar_append _ _ (by decide)] at hc
  have hc2 : (some 'e' : Option Char) = some c := hc
  exact hne (Option.some.inj hc2).symm

theorem lastChar_lock (s : String) : lastChar (s ++ ".lock") = some 'k' := by
  rw [lastChar_append _ _ (by decide)]; rfl

theorem lastChar_json (s : String) : lastChar (s ++ ".json") = some 'n' := by
  rw [lastChar_append _ _ (by decide)]; rfl

theorem lock_not_done (s : String) : ∀ q, s ++ ".lock" ≠ q ++ ".done" :=
  ne_done_of_lastChar _ 'k' (lastChar_lock s) (by decide)

theorem json_not_done (s : String) : ∀ q, s ++ ".json" ≠ q ++ ".done" :=
  ne_done_of_lastChar _ 'n' (lastChar_json s) (by decide)

theorem data_append_json_ne_nil (g : String) : (g ++ ".json").data ≠ [] := by
  rw [String.data_append]
  intro h
  have h2 := congrArg List.length h
  simp at h2

theorem reqjson_not_done (g : String) :
    ∀ q, "requests/" ++ (g ++ ".json") ≠ q ++ ".done" := by
  have hc : lastChar ("requests/" ++ (g ++ ".json")) = some 'n' := by
    rw [lastChar_append _ _ (data_append_json_ne_nil g), lastChar_json]
  exact ne_done_of_lastChar _ 'n' hc (by decide)

/-- Claim C1: the spec's lock contract demands exclusive fail-if-exists
creation, and src/unnamed/part_000 implements it, but the `lockFile` of
rdp-rest-proxy/proxy.js (and local-rest-proxy/proxy.js) uses a plain
truncate-create `writeFile`: on a store already holding the marker
`r.lock` it still returns `true` and truncates the existing marker,
so two concurrent acquire attempts can both return `true`.  The
exclusive-create variant returns `false` there without mutating, and after
one successful exclusive acquire a second attempt fails. -/
theorem C1_lock_not_exclusive :
    fsMem c1Store ("r" ++ ".lock") = true ∧
    (lockFile_rdp c1Store "r").2 = true ∧
    fsLookup (lockFile_rdp c1Store "r").1 ("r" ++ ".lock") = some (Content.raw "") ∧
    (lockFile_excl c1Store "r").2 = false ∧
    (lockFile_excl c1Store "r").1 = c1Store ∧
    (lockFile_excl ([] : FS) "r").2 = true ∧
    (lockFile_excl (lockFile_excl ([] : FS) "r").1 "r").2 = false ∧
    (lockFile_excl (lockFile_excl ([] : FS) "r").1 "r").1
      = (lockFile_excl ([] : FS) "r").1 := by
  decide

/-- Claim C3: the round trip.  Submitting GET /widgets/42 with empty
headers and null body, letting the worker claim it and the target answer
200 / content-type json / the JSON text, the completion waiter observes
the marker, delivers exactly that status, headers and body to the caller,
and after cleanup neither the Request Record nor the Response Record nor
the Completion Marker remains in the store. -/
theorem C3_round_trip :
    (waiterTick_marker c3Store1 "w42").2 = some c3RespRec ∧
    sendResponse c3RespRec
      = { status := 200, headers := c3Headers, body := RespBody.payload c3Body } ∧
    fsMem (cleanupFiles (waiterTick_marker c3Store1 "w42").1 "w42")
      ("requests/" ++ "w42" ++ ".json") = false ∧
    fsMem (cleanupFiles (waiterTick_marker c3Store1 "w42").1 "w42")
      ("responses/" ++ "w42" ++ ".json") = false ∧
    fsMem (cleanupFiles (waiterTick_marker c3Store1 "w42").1 "w42")
      ("responses/" ++ "w42" ++ ".json" ++ ".done") = false := by
  decide

/-- Claim C5: when every attempt fails at transport level, the worker's
retry loop makes exactly `MAX_RETRIES` attempts, the backoff delays slept
between successive attempts (1000ms, then 2000ms) are monotonically
non-decreasing, the loop ends with no response and the last error's
message, and the worker then writes the synthetic statusCode-500 Response
Record carrying that message to the store instead of leaving the request
unresolved. -/
theorem C5_retry_exhaustion (msgs : Nat → String) (now : Nat) :
    (retryLoop (fun i => AxiosResult.transportError (msgs i))).response = none ∧
    (retryLoop (fun i => AxiosResult.transportError (msgs i))).retries = MAX_RETRIES ∧
    (retryLoop (fun i => AxiosResult.transportError (msgs i))).lastError
      = some (msgs (MAX_RETRIES - 1)) ∧
    (retryLoop (fun i => AxiosResult.transportError (msgs i))).delays = [1000, 2000] ∧
    List.Chain' (fun a b => a ≤ b)
      (retryLoop (fun i => AxiosResult.transportError (msgs i))).delays ∧
    errorResponse (msgs (MAX_RETRIES - 1)) now
      = { statusCode := 500, headers := [],
          body := RespBody.errorObj "Internal Server Error" (msgs (MAX_RETRIES - 1)),
          timestamp := now } ∧
    fsLookup
      (workerStep (fun i => AxiosResult.transportError (msgs i)) c5Store "e.json" now)
      ("responses/" ++ "e" ++ ".json")
      = some (Content.resp (errorResponse (msgs 2) now)) := by
  refine ⟨rfl, rfl, rfl, rfl, ?_, rfl, rfl⟩
  show List.Chain' (fun a b => a ≤ b) [1000, 2000]
  simp [List.chain'_cons, List.chain'_singleton]

/-- Claim C6 counterexample: a listed request file whose lock attempt
fails on a tick is nevertheless added to the recently-seen set before the
attempt, so on the next tick — with the file still listed (and still
pending) — the candidate set is empty: the record is not retried, and
dispatch does depend on the set's contents. -/
theorem C6_counterexample :
    (discoveryTick [] ["a.json"] (fun _ => false)).2 = [("a.json", false)] ∧
    (discoveryTick [] ["a.json"] (fun _ => false)).1 = ["a.json"] ∧
    newFilesOf ["a.json"] (discoveryTick [] ["a.json"] (fun _ => false)).1 = [] := by
  decide

/-- Claim C6 as amended: a record entering the candidate set on some tick
is added to the recently-seen set regardless of its lock result, and as
long as it remains there (it can only leave by eviction once the set
exceeds `MAX_PROCESSED_FILES`) it is excluded from every later tick's
candidate set, whatever the later listing contains. -/
theorem C6_recently_seen (processed files files2 : List String) (f : String)
    (lockOk : String → Bool)
    (h1 : f ∈ newFilesOf files processed)
    (h2 : (processed ++ newFilesOf files processed).length ≤ MAX_PROCESSED_FILES) :
    f ∈ (discoveryTick processed files lockOk).1 ∧
    f ∉ newFilesOf files2 (discoveryTick processed files lockOk).1 := by
  have hup : (discoveryTick processed files lockOk).1
      = processed ++ newFilesOf files processed := by
    show updateProcessed processed (newFilesOf files processed)
      = processed ++ newFilesOf files processed
    unfold updateProcessed
    rw [if_neg (by omega)]
  constructor
  · rw [hup]; exact List.mem_append_right _ h1
  · rw [hup]
    intro hmem
    have h4 : (processed ++ newFilesOf files processed).contains f = true :=
      List.elem_eq_true_of_mem (List.mem_append_right processed h1)
    have h6 := (List.mem_filter.mp hmem).2
    rw [h4] at h6
    simp at h6

theorem C6_recently_seen_witness :
    "b.json" ∈ (discoveryTick [] ["b.json"] (fun _ => true)).1 ∧
    "b.json" ∉ newFilesOf ["b.json"] (discoveryTick [] ["b.json"] (fun _ => true)).1 :=
  C6_recently_seen [] ["b.json"] ["b.json"] "b.json" (fun _ => true)
    (by decide) (by decide)

set_option maxRecDepth 100000 in
/-- Claim C7: when no readable response ever appears, the waiter loop of
the local proxy polls `MAX_ATTEMPTS` times at `POLL_INTERVAL` ms and then
returns (does not throw) a timeout outcome after exactly the configured
deadline `MAX_ATTEMPTS * POLL_INTERVAL` = 30000 ms, which the handler
turns into an HTTP 504 Gateway-Timeout answer carrying the elapsed wait
time. -/
theorem C7_timeout :
    awaitResponse (fun _ => ([] : FS)) "id42"
      = AwaitOutcome.timeout (MAX_ATTEMPTS * POLL_INTERVAL) ∧
    MAX_ATTEMPTS * POLL_INTERVAL = 30000 ∧
    timeoutHttp (MAX_ATTEMPTS * POLL_INTERVAL)
      = (504, { error := "Gateway Timeout",
                message := "Remote client did not respond in time",
                elapsedTime := 30000 }) := by
  refine ⟨?_, rfl, rfl⟩
  decide

/-- Claim C4 counterexample: on retry exhaustion the worker rewrites the
Request Record's status to the string `error`, which is outside the
claimed enum \x7bpending, claimed, completed, failed\x7d. -/
theorem C4_counterexample :
    fsLookup (workerStep c4FailOracle c4Store "a.json" 5) ("requests/" ++ "a" ++ ".json")
      = some (Content.req
          { id := "a", method := "GET", path := "/x", headers := [],
            body := none, timestamp := 0, status := "error" }) ∧
    "error" ∉ (["pending", "claimed", "completed", "failed"] : List String) := by
  decide

theorem workerOps_req_status (oracle : Nat → AxiosResult) (fs : FS) (f : String)
    (now : Nat) (p : String) (r : RequestRecord)
    (hmem : FOp.write p (Content.req r) ∈ workerStepOps oracle fs f now) :
    r.status = "completed" ∨ r.status = "error" := by
  unfold workerStepOps at hmem
  rcases hl : fsLookup fs ("requests/" ++ f) with _ | c
  · rw [hl] at hmem
    simp at hmem
  · rw [hl] at hmem
    cases c with
    | raw s0 => simp at hmem
    | resp r0 => simp at hmem
    | req rD =>
        by_cases hs : rD.status = "pending"
        · rcases hr : (retryLoop oracle).response with _ | ar
          · rw [hr] at hmem
            simp [hs] at hmem
            exact Or.inr (by rw [hmem.2])
          · rw [hr] at hmem
            cases ar with
            | ok s0 h0 d0 =>
                simp [hs] at hmem
                exact Or.inl (by rw [hmem.2])
            | transportError m0 =>
                simp [hs] at hmem
                exact Or.inr (by rw [hmem.2])
        · simp [hs] at hmem

/-- Claim C4 as amended: every Request Record is created with status
`pending`; the worker's status writes are only `completed` (success path)
and `error` (failure path) — never `claimed`, never `failed` — and both
roles' operations keep every request status inside
\x7bpending, completed, error\x7d; no write returns a record to
`pending`. -/
theorem C4_status_writes :
    (∀ (fs : FS) (id method path : String) (headers : List (String × String))
        (body : Option String) (now : Nat),
        fsLookup (submitRequest fs id method path headers body now)
            ("requests/" ++ id ++ ".json")
          = some (Content.req
              { id := id, method := method, path := path, headers := headers,
                body := body, timestamp := now, status := "pending" })) ∧
    (∀ (oracle : Nat → AxiosResult) (fs : FS) (f : String) (now : Nat)
        (p : String) (r : RequestRecord),
        FOp.write p (Content.req r) ∈ workerStepOps oracle fs f now →
        r.status = "completed" ∨ r.status = "error") ∧
    (∀ (fs : FS) (id method path : String) (headers : List (String × String))
        (body : Option String) (now : Nat), StatusOK fs →
        StatusOK (submitRequest fs id method path headers body now)) ∧
    (∀ (oracle : Nat → AxiosResult) (fs : FS) (f : String) (now : Nat),
        StatusOK fs → StatusOK (workerStep oracle fs f now)) := by
  refine ⟨?_, ?_, ?_, ?_⟩
  · intro fs id method path headers body now
    unfold submitRequest
    rw [fsLookup_fsWrite]
    simp
  · exact fun oracle fs f now p r h => workerOps_req_status oracle fs f now p r h
  · intro fs id method path headers body now hOK p r hl
    unfold submitRequest at hl
    rw [fsLookup_fsWrite] at hl
    by_cases hp : p = "requests/" ++ id ++ ".json"
    · rw [if_pos hp] at hl
      have h3 := Option.some.inj hl
      injection h3 with h4
      exact Or.inl (by rw [← h4])
    · rw [if_neg hp] at hl
      exact hOK p r hl
  · intro oracle fs f now hOK p r hl
    rcases fsLookup_applyOps _ _ _ _ hl with hmem | hfs
    · rcases workerOps_req_status oracle fs f now p r hmem with h | h
      · exact Or.inr (Or.inl h)
      · exact Or.inr (Or.inr h)
    · exact hOK p r hfs

theorem C4_status_writes_witness :
    c4CompletedRec.status = "completed" ∨ c4CompletedRec.status = "error" :=
  C4_status_writes.2.1 c3Oracle c3Store0 "w42.json" 1 ("requests/" ++ "w42.json")
    c4CompletedRec (by decide)

/-- Claim C2 counterexample: the local-rest-proxy completion waiter reads
(and consumes) a Response Record from a store that contains no Completion
Marker for that id — it never checks the `.done` file — refuting the claim
that the waiter never reads a Response Record without having observed the
marker. -/
theorem C2_counterexample :
    waiterTick_nomarker c2StoreNoMarker "abc" = (([] : FS), some c2Resp) ∧
    fsMem c2StoreNoMarker ("responses/" ++ "abc" ++ ".json" ++ ".done") = false := by
  decide

/-- Claim C2 as amended: the worker creates a Completion Marker only as
the very next store operation after writing the corresponding Response
Record (its other operations never create a `.done` path), and the refined
(part_000) completion waiter returns a Response Record only from a store
in which it observed that id's Completion Marker; the local-rest-proxy
waiter, by contrast, performs no such check (see the counterexample). -/
theorem C2_commit_ordering :
    (∀ (oracle : Nat → AxiosResult) (fs : FS) (g : String) (now : Nat),
        (∃ pre post rp r,
            workerStepOps oracle fs (g ++ ".json") now
              = pre ++ FOp.write rp (Content.resp r)
                  :: FOp.write (rp ++ ".done") (Content.raw "") :: post ∧
            (∀ op ∈ pre, ¬ isDoneCreate op) ∧ (∀ op ∈ post, ¬ isDoneCreate op))
        ∨ (∀ op ∈ workerStepOps oracle fs (g ++ ".json") now, ¬ isDoneCreate op)) ∧
    (∀ (fs : FS) (id : String) (fsAfter : FS) (r : ResponseRecord),
        waiterTick_marker fs id = (fsAfter, some r) →
        fsMem fs ("responses/" ++ id ++ ".json" ++ ".done") = true) := by
  constructor
  · intro oracle fs g now
    rcases hl : fsLookup fs ("requests/" ++ (g ++ ".json")) with _ | c
    · refine Or.inr ?_
      intro op hop
      simp [workerStepOps, hl] at hop
      rcases hop with rfl | rfl | rfl
      · simp [isDoneCreate]
        intro q
        exact lock_not_done _ q
      · simp [isDoneCreate]
        intro q
        exact json_not_done _ q
      · simp [isDoneCreate]
    · cases c with
      | raw s0 =>
          refine Or.inr ?_
          intro op hop
          simp [workerStepOps, hl] at hop
          rcases hop with rfl | rfl | rfl
          · simp [isDoneCreate]
            intro q
            exact lock_not_done _ q
          · simp [isDoneCreate]
            intro q
            exact json_not_done _ q
          · simp [isDoneCreate]
      | resp r0 =>
          refine Or.inr ?_
          intro op hop
          simp [workerStepOps, hl] at hop
          rcases hop with rfl | rfl | rfl
          · simp [isDoneCreate]
            intro q
            exact lock_not_done _ q
          · simp [isDoneCreate]
            intro q
            exact json_not_done _ q
          · simp [isDoneCreate]
      | req rD =>
          by_cases hs : rD.status = "pending"
          · rcases hr : (retryLoop oracle).response with _ | ar
            · refine Or.inr ?_
              intro op hop
              simp [workerStepOps, hl, hs, hr] at hop
              rcases hop with rfl | rfl | rfl | rfl
              · simp [isDoneCreate]
                intro q
                exact lock_not_done _ q
              · simp [isDoneCreate]
                intro q
                exact json_not_done _ q
              · simp [isDoneCreate]
                intro q
                exact reqjson_not_done g q
              · simp [isDoneCreate]
            · cases ar with
              | transportError m0 =>
                  refine Or.inr ?_
                  intro op hop
                  simp [workerStepOps, hl, hs, hr] at hop
                  rcases hop with rfl | rfl | rfl | rfl
                  · simp [isDoneCreate]
                    intro q
                    exact lock_not_done _ q
                  · simp [isDoneCreate]
                    intro q
                    exact json_not_done _ q
                  · simp [isDoneCreate]
                    intro q
                    exact reqjson_not_done g q
                  · simp [isDoneCreate]
              | ok s0 h0 d0 =>
                  refine Or.inl
                    ⟨[FOp.write ("requests/" ++ (g ++ ".json") ++ ".lock") (Content.raw ""),
                      FOp.write ("responses/" ++ rD.id ++ ".json" ++ ".lock") (Content.raw "")],
                     [FOp.unlink ("responses/" ++ rD.id ++ ".json" ++ ".lock"),
                      FOp.write ("requests/" ++ (g ++ ".json"))
                        (Content.req { rD with status := "completed" }),
                      FOp.unlink ("requests/" ++ (g ++ ".json") ++ ".lock")],
                     "responses/" ++ rD.id ++ ".json",
                     { statusCode := s0, headers := h0, body := RespBody.payload d0,
                       timestamp := now },
                     ?_, ?_, ?_⟩
                  · simp [workerStepOps, hl, hs, hr]
                  · intro op hop
                    simp at hop
                    rcases hop with rfl | rfl
                    · simp [isDoneCreate]
                      intro q
                      exact lock_not_done _ q
                    · simp [isDoneCreate]
                      intro q
                      exact lock_not_done _ q
                  · intro op hop
                    simp at hop
                    rcases hop with rfl | rfl | rfl
                    · simp [isDoneCreate]
                    · simp [isDoneCreate]
                      intro q
                      exact reqjson_not_done g q
                    · simp [isDoneCreate]
          · refine Or.inr ?_
            intro op hop
            simp [workerStepOps, hl, hs] at hop
            rcases hop with rfl | rfl
            · simp [isDoneCreate]
              intro q
              exact lock_not_done _ q
            · simp [isDoneCreate]
  · intro fs id fsAfter r h
    rcases hL : lockFile_excl fs ("responses/" ++ id ++ ".json") with ⟨fsL, b⟩
    cases b
    · rw [waiterTick_marker, hL] at h
      simp at h
    · have hW : fsWriteExcl fs ("responses/" ++ id ++ ".json" ++ ".lock")
          (Content.raw "pid") = some fsL := by
        unfold lockFile_excl at hL
        rcases hV : fsWriteExcl fs ("responses/" ++ id ++ ".json" ++ ".lock")
            (Content.raw "pid") with _ | fs2
        · rw [hV] at hL
          simp at hL
        · rw [hV] at hL
          simp at hL
          rw [hL]
      have hFsL : fsL
          = ("responses/" ++ id ++ ".json" ++ ".lock", Content.raw "pid") :: fs := by
        unfold fsWriteExcl at hW
        by_cases hm : fsMem fs ("responses/" ++ id ++ ".json" ++ ".lock") = true
        · rw [if_pos hm] at hW
          cases hW
        · rw [if_neg hm] at hW
          exact (Option.some.inj hW).symm
      have hstep : fsLookup
            (("responses/" ++ id ++ ".json" ++ ".lock", Content.raw "pid") :: fs)
            ("responses/" ++ id ++ ".json" ++ ".done")
          = fsLookup fs ("responses/" ++ id ++ ".json" ++ ".done") := by
        simp only [fsLookup]
        rw [if_neg (lock_not_done ("responses/" ++ id ++ ".json")
          ("responses/" ++ id ++ ".json"))]
      have hmemEq : fsMem fsL ("responses/" ++ id ++ ".json" ++ ".done")
          = fsMem fs ("responses/" ++ id ++ ".json" ++ ".done") := by
        rw [hFsL]
        unfold fsMem
        rw [hstep]
      by_cases hg : fsMem fsL ("responses/" ++ id ++ ".json" ++ ".done") = true
      · rw [← hmemEq]
        exact hg
      · have hg2 : fsMem fsL ("responses/" ++ id ++ ".json" ++ ".done") = false := by
          simp at hg
          exact hg
        rw [waiterTick_marker, hL] at h
        simp [hg2] at h

theorem C2_commit_ordering_witness :
    fsMem c2StoreMarked ("responses/" ++ "abc" ++ ".json" ++ ".done") = true :=
  C2_commit_ordering.2 c2StoreMarked "abc" c2StoreMarked c2Resp (by decide)

theorem fsLookup_rm (fs : FS) (dir p : String) :
    fsLookup (rmRecursiveForce fs dir) p
      = if strStartsWith p (dir ++ "/") = true then none else fsLookup fs p := by
  induction fs with
  | nil => by_cases h : strStartsWith p (dir ++ "/") = true <;> simp [rmRecursiveForce, fsLookup, h]
  | cons kv rest ih =>
      unfold rmRecursiveForce at ih ⊢
      by_cases hk : strStartsWith kv.1 (dir ++ "/") = true
      · rw [show List.filter (fun kv => !(strStartsWith kv.1 (dir ++ "/"))) (kv :: rest)
            = List.filter (fun kv => !(strStartsWith kv.1 (dir ++ "/"))) rest by
          simp [List.filter_cons, hk]]
        rw [ih]
        by_cases hp : strStartsWith p (dir ++ "/") = true
        · simp [hp]
        · have hkp : kv.1 ≠ p := fun he => hp (he ▸ hk)
          simp [hp, fsLookup, hkp]
      · rw [show List.filter (fun kv => !(strStartsWith kv.1 (dir ++ "/"))) (kv :: rest)
            = kv :: List.filter (fun kv => !(strStartsWith kv.1 (dir ++ "/"))) rest by
          simp [List.filter_cons, hk]]
        by_cases he : kv.1 = p
        · have hp : ¬ strStartsWith p (dir ++ "/") = true := fun hc => hk (he ▸ hc)
          simp [fsLookup, he, hp]
        · simp [fsLookup, he, ih]

/-- Claim C8: releasing a lock whose marker is already absent is not an
error (the refined `unlockFile` returns success and leaves the store
unchanged; the rdp variant merely reports `false`, raising nothing and
also leaving the store unchanged); deleting an already-absent file is a
no-op; and the waiter's cleanup touches nothing but the three files of its
own id, leaving every other record unchanged. -/
theorem C8_idempotent_cleanup :
    (∀ (fs : FS) (p : String), fsMem fs (p ++ ".lock") = false →
        unlockFile_excl fs p = (fs, true)) ∧
    (∀ (fs : FS) (p : String), fsMem fs (p ++ ".lock") = false →
        unlockFile_rdp fs p = (fs, false)) ∧
    (∀ (fs : FS) (p : String), fsMem fs p = false → fsErase fs p = fs) ∧
    (∀ (fs : FS) (id q : String),
        q ≠ "responses/" ++ id ++ ".json" →
        q ≠ "responses/" ++ id ++ ".json" ++ ".done" →
        q ≠ "requests/" ++ id ++ ".json" →
        fsLookup (cleanupFiles fs id) q = fsLookup fs q) := by
  refine ⟨?_, ?_, ?_, ?_⟩
  · intro fs p h
    unfold unlockFile_excl fsUnlink
    rw [h]
    simp
  · intro fs p h
    unfold unlockFile_rdp fsUnlink
    rw [h]
    simp
  · exact fsErase_of_not_mem
  · intro fs id q h1 h2 h3
    unfold cleanupFiles
    rw [fsLookup_fsErase, if_neg h3, fsLookup_fsErase, if_neg h2,
      fsLookup_fsErase, if_neg h1]

theorem C8_idempotent_cleanup_witness :
    unlockFile_excl ([] : FS) "responses/z.json" = (([] : FS), true) ∧
    unlockFile_rdp ([] : FS) "responses/z.json" = (([] : FS), false) ∧
    fsErase ([] : FS) "responses/z.json" = ([] : FS) ∧
    fsLookup (cleanupFiles [("requests/other.json", Content.raw "x")] "z")
        "requests/other.json"
      = fsLookup [("requests/other.json", Content.raw "x")] "requests/other.json" :=
  ⟨C8_idempotent_cleanup.1 [] "responses/z.json" (by decide),
   C8_idempotent_cleanup.2.1 [] "responses/z.json" (by decide),
   C8_idempotent_cleanup.2.2.1 [] "responses/z.json" (by decide),
   C8_idempotent_cleanup.2.2.2 [("requests/other.json", Content.raw "x")] "z"
     "requests/other.json" (by decide) (by decide) (by decide)⟩

/-- Claim C9: for every sequence of semaphore events, the number of tasks
holding a slot never exceeds the capacity (and always equals the
semaphore's `current` counter), and every per-file task of the worker's
batch emits exactly one acquire and exactly one release — its release sits
in the outermost `finally`, so it runs on every outcome, including the
error path. -/
theorem C9_semaphore :
    (∀ (maxConcurrent : Nat) (events : List SemEvent),
        (semRun maxConcurrent events).holders = (semRun maxConcurrent events).current ∧
        (semRun maxConcurrent events).holders ≤ maxConcurrent) ∧
    (∀ o : TaskOutcome,
        (fileTaskSemEvents o).count SemEvent.acquire = 1 ∧
        (fileTaskSemEvents o).count SemEvent.release = 1) := by
  constructor
  · intro m events
    suffices hgen : ∀ (s : SemState), s.holders = s.current → s.current ≤ m →
        (events.foldl (semStep m) s).holders = (events.foldl (semStep m) s).current ∧
        (events.foldl (semStep m) s).holders ≤ m by
      exact hgen { current := 0, queue := 0, holders := 0 } rfl (Nat.zero_le m)
    induction events with
    | nil =>
        intro s h1 h2
        exact ⟨h1, h1 ▸ h2⟩
    | cons e rest ih =>
        intro s h1 h2
        refine ih (semStep m s e) ?_ ?_
        · cases e <;> simp [semStep] <;> split_ifs <;> simp <;> omega
        · cases e <;> simp [semStep] <;> split_ifs <;> simp <;> omega
  · intro o
    exact ⟨rfl, rfl⟩

theorem fsLookup_initDirs (fs : FS) (p : String) :
    fsLookup (initDirs fs) p
      = if strStartsWith p "requests/" = true ∨ strStartsWith p "responses/" = true
        then none else fsLookup fs p := by
  unfold initDirs
  rw [fsLookup_rm, fsLookup_rm]
  rw [show ("responses" : String) ++ "/" = "responses/" from rfl,
    show ("requests" : String) ++ "/" = "requests/" from rfl]
  by_cases h1 : strStartsWith p "requests/" = true <;>
    by_cases h2 : strStartsWith p "responses/" = true <;>
    simp [h1, h2]

/-- Claim C10: each role's startup `initializeDirs` removes both record
namespaces wholesale — every Request Record, Response Record, lock marker
and completion marker under `requests/` or `responses/` is gone, so a
pending exchange does not survive a restart — while paths outside the two
namespaces are untouched, and the namespaces are recreated empty. -/
theorem C10_initialize_dirs :
    (∀ (fs : FS) (p : String),
        strStartsWith p "requests/" = true ∨ strStartsWith p "responses/" = true →
        fsMem (initDirs fs) p = false) ∧
    (∀ (fs : FS) (p : String),
        strStartsWith p "requests/" = false → strStartsWith p "responses/" = false →
        fsLookup (initDirs fs) p = fsLookup fs p) := by
  constructor
  · intro fs p h
    unfold fsMem
    rw [fsLookup_initDirs, if_pos h]
    rfl
  · intro fs p h1 h2
    rw [fsLookup_initDirs, if_neg]
    rw [h1, h2]
    simp

theorem C10_initialize_dirs_witness :
    fsMem (initDirs [("requests/a.json", Content.raw "x"),
        ("responses/b.json.done", Content.raw "")]) "requests/a.json" = false ∧
    fsLookup (initDirs [("other.txt", Content.raw "k")]) "other.txt"
      = fsLookup [("other.txt", Content.raw "k")] "other.txt" :=
  ⟨C10_initialize_dirs.1 [("requests/a.json", Content.raw "x"),
      ("responses/b.json.done", Content.raw "")] "requests/a.json" (Or.inl (by decide)),
   C10_initialize_dirs.2 [("other.txt", Content.raw "k")] "other.txt"
     (by decide) (by decide)⟩

theorem C5_retry_exhaustion_witness :
    (retryLoop (fun _ => AxiosResult.transportError "boom")).response = none :=
  (C5_retry_exhaustion (fun _ => "boom") 7).1

theorem C9_semaphore_witness :
    (semRun MAX_CONCURRENT_REQUESTS
        [SemEvent.acquire, SemEvent.acquire, SemEvent.release]).holders
      ≤ MAX_CONCURRENT_REQUESTS :=
  (C9_semaphore.1 MAX_CONCURRENT_REQUESTS
    [SemEvent.acquire, SemEvent.acquire, SemEvent.release]).2
